import Mathlib

set_option maxRecDepth 10000

/-!
Verification development for the `lw_airflow` utility layer
(`dags/lw_airflow/core/{db.py, operators.py, experimental_operators.py}`).

The Python code is shallowly embedded: strings are Lean `String`s
(reasoned about through their `List Char` data), fallible code
(Python `assert`) returns `Option`, and Python regular-expression
character classes are modelled over ASCII (Lean's `Char.isAlpha` /
`Char.isDigit` are the ASCII tests).  CPython's default `\w` is
Unicode-aware and also matches non-ASCII word characters, which a
`Char`-level model cannot classify, so the theorems characterizing the
two regex-based sanitizers carry an explicit all-ASCII hypothesis; on
ASCII inputs the model agrees with CPython exactly.
Python's `$` anchor is modelled faithfully: it matches at the end of
the string or just before a newline that ends the string.

Characters that the surrounding tooling treats specially (quote,
backslash, whitespace, punctuation) are written via `Char.ofNat`.
-/

/-- The single-quote character `'` (codepoint 39). -/
def sqC : Char := Char.ofNat 39

/-- The backslash character (codepoint 92). -/
def bsC : Char := Char.ofNat 92

/-- The newline character (codepoint 10). -/
def nlC : Char := Char.ofNat 10

/-- The space character (codepoint 32). -/
def spC : Char := Char.ofNat 32

/-- The semicolon character `;` (codepoint 59). -/
def semiC : Char := Char.ofNat 59

/-- The underscore character `_` (codepoint 95). -/
def underC : Char := Char.ofNat 95

/-- The opening parenthesis `(` (codepoint 40). -/
def lparC : Char := Char.ofNat 40

/-- The closing parenthesis `)` (codepoint 41). -/
def rparC : Char := Char.ofNat 41

/-- The comma character `,` (codepoint 44). -/
def commaC : Char := Char.ofNat 44

/-- One-character string holding a single quote. -/
def sqS : String := ⟨[sqC]⟩

/-- `quoted s` is `'s'` — the SQL single-quoted form used by the f-strings. -/
def quoted (s : String) : String := sqS ++ s ++ sqS

/-- ASCII whitespace stripped by Python's `str.strip()`:
space, tab, newline, carriage return, vertical tab, form feed. -/
def isPySpace (c : Char) : Bool :=
  c = spC || c = Char.ofNat 9 || c = nlC || c = Char.ofNat 13 ||
  c = Char.ofNat 11 || c = Char.ofNat 12

/-- The ASCII portion of Python's `\w` character class: letters, digits,
underscore.  On ASCII characters this agrees with CPython exactly.
CPython's `\w` without `re.ASCII` additionally matches non-ASCII Unicode
word characters (accented letters, other scripts), a classification this
`Char`-level model does not carry; the characterization theorems below
therefore restrict their statements to all-ASCII inputs. -/
def isWordChar (c : Char) : Bool := c.isAlpha || c.isDigit || c = underC

/-- Character class `[\w(), ]` of `sanitize_column_type`'s regex,
restricted to its ASCII portion exactly as `isWordChar` is (agreeing
with CPython on ASCII characters; non-ASCII Unicode word characters are
not classified, so the characterization theorems below restrict to
all-ASCII inputs). -/
def isTypeChar (c : Char) : Bool :=
  isWordChar c || c = lparC || c = rparC || c = commaC || c = spC

/-- Drop trailing characters satisfying `p` (list form of `str.rstrip`). -/
def rstripList (p : Char → Bool) (l : List Char) : List Char :=
  (l.reverse.dropWhile p).reverse

/-- Model of Python `str.strip()` (default whitespace). -/
def pyStrip (s : String) : String :=
  ⟨rstripList isPySpace (s.data.dropWhile isPySpace)⟩

/-- Model of Python `str.rstrip(";")`: removes every trailing semicolon. -/
def pyRstripSemi (s : String) : String :=
  ⟨rstripList (fun c => c = semiC) s.data⟩

/-- `operators._format_query`: `snow_sql.strip().rstrip(";")`. -/
def _format_query (snow_sql : String) : String :=
  pyRstripSemi (pyStrip snow_sql)

/-- Model of `re.match(r"^<class>+$", s)` for a character class `p` whose
characters exclude the newline.  In Python, `$` (without `re.MULTILINE`)
matches at the end of the string or just before a final newline, so the
regex accepts a non-empty all-`p` string optionally followed by one
trailing newline. -/
def reMatchClassPlus (p : Char → Bool) (s : String) : Bool :=
  match s.data.getLast? with
  | some c =>
      if c = nlC then !s.data.dropLast.isEmpty && s.data.dropLast.all p
      else s.data.all p
  | none => false

/-- Model of `re.match(r"^[A-Za-z_].*", s)`: the first character is an
ASCII letter or underscore (`.*` always matches). -/
def reMatchStartsAlpha (s : String) : Bool :=
  match s.data with
  | [] => false
  | c :: _ => c.isAlpha || c = underC

/-- `db.sanitize_column_name`: asserts `re.match(r"^\w+$", name)` and
`re.match(r"^[A-Za-z_].*", name)`, returning the name unchanged;
assertion failure is modelled as `none`. -/
def sanitize_column_name (name : String) : Option String :=
  if reMatchClassPlus isWordChar name && reMatchStartsAlpha name then some name
  else none

/-- The running-parenthesis scan of `db.sanitize_column_type`: the open
count (started at `n`) must never go negative and must end at zero;
both `assert`s are modelled as `false`. -/
def parenScan : List Char → Nat → Bool
  | [], n => n == 0
  | c :: rest, n =>
      if c = lparC then parenScan rest (n + 1)
      else if c = rparC then
        match n with
        | 0 => false
        | m + 1 => parenScan rest m
      else parenScan rest n

/-- `db.sanitize_column_type`: empty string passes through; otherwise the
regex `^[\w(), ]+$` must match and the parentheses must balance. -/
def sanitize_column_type (type_str : String) : Option String :=
  if type_str = "" then some type_str
  else if reMatchClassPlus isTypeChar type_str && parenScan type_str.data 0 then
    some type_str
  else none

/-- Character-wise expansion implementing `str.replace` for the
one-character needle used at the call site. -/
def replaceChar (c : Char) (rep : List Char) : List Char → List Char
  | [] => []
  | x :: xs => (if x = c then rep else [x]) ++ replaceChar c rep xs

/-- `db.sanitize_comment`: `comment.replace("'", "\\'")` — every single
quote becomes backslash-quote.  Total: always succeeds. -/
def sanitize_comment (comment : String) : String :=
  ⟨replaceChar sqC [bsC, sqC] comment.data⟩

/-- `db.ColumnSpec` after construction: the stored (sanitized) fields. -/
structure ColumnSpec where
  name : String
  col_type : String
  comment : String
deriving DecidableEq, Repr

/-- `ColumnSpec.__init__`: applies the three sanitizers to the raw inputs
and stores the results; a sanitizer assertion failure aborts construction. -/
def mkColumnSpec (name col_type comment : String) : Option ColumnSpec := do
  let n ← sanitize_column_name name
  let t ← sanitize_column_type col_type
  some ⟨n, t, sanitize_comment comment⟩

/-- `ColumnSpec.clause`: asserts the type is non-empty, then returns
`f"{name} {col_type} {comment_part}".strip()` where `comment_part` is
`COMMENT '{comment}'` when the comment is non-empty and `""` otherwise. -/
def ColumnSpec.clause (c : ColumnSpec) : Option String :=
  if c.col_type = "" then none
  else
    some (pyStrip (c.name ++ " " ++ c.col_type ++ " " ++
      (if c.comment ≠ "" then "COMMENT " ++ quoted c.comment else "")))

/-- `operators._transaction_settings`: (transaction_start, transaction_end,
autocommit_state). -/
def _transaction_settings (create_transaction : Bool) : String × String × String :=
  (if create_transaction then "BEGIN TRANSACTION;" else "",
   if create_transaction then "COMMIT;" else "",
   if create_transaction then "FALSE" else "TRUE")

/-- Model of Python `sep.join(l)`. -/
def joinSep (sep : String) : List String → String
  | [] => ""
  | x :: xs => xs.foldl (fun acc y => acc ++ sep ++ y) x

/-- The `create` task's SQL f-string of `managed_snowflake_task_group`,
whitespace reproduced from the source. -/
def createSql (table_type full_table_name columns cluster_by_clause : String) : String :=
  "\n            CREATE " ++ table_type ++ " TABLE IF NOT EXISTS " ++
  full_table_name ++ " (" ++ columns ++ ")\n            " ++
  cluster_by_clause ++ ";\n            "

/-- The `replace` task's SQL f-string of `managed_snowflake_task_group`,
whitespace reproduced from the source. -/
def replaceSql (full_table_name col_names fmt_select autocommit_state
    transaction_start transaction_end pre_insert post_insert delete : String) :
    String :=
  "\n            alter session set\n                TIMEZONE = " ++
  quoted "UTC" ++
  "\n                TIMESTAMP_TYPE_MAPPING = TIMESTAMP_LTZ\n                AUTOCOMMIT = " ++
  autocommit_state ++ ";\n            " ++
  transaction_start ++ "\n            " ++
  pre_insert ++ "\n            " ++
  delete ++ "\n            INSERT INTO " ++
  full_table_name ++ " (" ++ col_names ++ ")\n            SELECT " ++
  col_names ++ "\n            FROM (" ++ fmt_select ++ ");\n            " ++
  post_insert ++ "\n            " ++
  transaction_end ++
  "\n            alter session unset TIMEZONE, TIMESTAMP_TYPE_MAPPING, AUTOCOMMIT;\n            "

/-- The `DELETE` component assembled at line 85 of `operators.py`:
`f"DELETE FROM {full_table_name} WHERE {_format_query(replace_where)};"`
when `replace_where` is truthy (non-empty), `""` otherwise. -/
def deleteComponent (full_table_name replace_where : String) : String :=
  if replace_where = "" then ""
  else "DELETE FROM " ++ full_table_name ++ " WHERE " ++
       _format_query replace_where ++ ";"

/-- `operators.managed_snowflake_task_group`, restricted to its pure
string-assembly content: from the resolved database/schema and the
remaining inputs it produces the (create, replace) SQL pair.  A failing
`assert` inside `ColumnSpec.clause` (empty column type) aborts assembly;
Airflow-object plumbing (TaskGroup, operators, DAG context) is not part
of the string model. -/
def managed_snowflake_task_group (database schema output_table : String)
    (output_columns : List ColumnSpec)
    (select replace_where pre_insert post_insert table_type : String)
    (create_transaction : Bool) (cluster_by : List String) :
    Option (String × String) := do
  let full_table_name := database ++ "." ++ schema ++ "." ++ output_table
  let pre := if pre_insert = "" then pre_insert else _format_query pre_insert ++ ";"
  let post := if post_insert = "" then post_insert else _format_query post_insert ++ ";"
  let settings := _transaction_settings create_transaction
  let transaction_start := settings.1
  let transaction_end := settings.2.1
  let autocommit_state := settings.2.2
  let cluster_by_clause :=
    if cluster_by = [] then ""
    else "CLUSTER BY (" ++ joinSep ", " cluster_by ++ ")"
  let delete := deleteComponent full_table_name replace_where
  let clauses ← output_columns.mapM ColumnSpec.clause
  let columns := joinSep ", " clauses
  let col_names := joinSep ", " (output_columns.map ColumnSpec.name)
  some (createSql table_type full_table_name columns cluster_by_clause,
        replaceSql full_table_name col_names (_format_query select)
          autocommit_state transaction_start transaction_end pre post delete)

/-- Decimal value of an ASCII digit, `none` otherwise. -/
def digitVal (c : Char) : Option Int :=
  if c.isDigit then some ((c.toNat : Int) - 48) else none

/-- Two-digit decimal field. -/
def parse2 (a b : Char) : Option Int := do
  let x ← digitVal a
  let y ← digitVal b
  some (10 * x + y)

/-- Four-digit decimal field. -/
def parse4 (a b c d : Char) : Option Int := do
  let x ← parse2 a b
  let y ← parse2 c d
  some (100 * x + y)

/-- Gregorian leap-year test. -/
def isLeap (y : Int) : Bool := (y % 4 == 0 && y % 100 != 0) || y % 400 == 0

/-- Days in the given month of the given year. -/
def daysInMonth (y m : Int) : Int :=
  if m = 2 then (if isLeap y then 29 else 28)
  else if m = 4 ∨ m = 6 ∨ m = 9 ∨ m = 11 then 30
  else 31

/-- Days in the year `y` that precede month `m` (`1 ≤ m ≤ 12`). -/
def daysBeforeMonth (y m : Int) : Int :=
  (([0, 31, 59, 90, 120, 151, 181, 212, 243, 273, 304, 334] :
      List Int).getD (m.toNat - 1) 0) +
  (if 2 < m ∧ isLeap y then 1 else 0)

/-- Number of leap years in `[1, x]` for `x ≥ 0`. -/
def leapsUpTo (x : Int) : Int := x.fdiv 4 - x.fdiv 100 + x.fdiv 400

/-- Days between 1970-01-01 and the start of year `y`. -/
def daysBeforeYear (y : Int) : Int :=
  365 * (y - 1970) + (leapsUpTo (y - 1) - leapsUpTo 1969)

/-- Seconds since the Unix epoch of the civil instant
`y-m-d h:mi:s` at UTC offset `off` seconds. -/
def epochSeconds (y m d h mi s off : Int) : Int :=
  (daysBeforeYear y + daysBeforeMonth y m + (d - 1)) * 86400 +
  h * 3600 + mi * 60 + s - off

/-- Model of `datetime.fromisoformat` on the timezone-aware
`YYYY-MM-DDxHH:MM:SS±HH:MM` shape produced by Airflow's `{{ ts }}`
macro (CPython does not validate the separator character at
position 10), returning seconds since the Unix epoch.  Strings of any
other shape — including naive timestamps, whose later comparison with
the timezone-aware `now` raises `TypeError` — are modelled as `none`. -/
def parseIsoAware (ts : String) : Option Int :=
  match ts.data with
  | [y1, y2, y3, y4, s1, mo1, mo2, s2, d1, d2, _sep,
     h1, h2, c1, mi1, mi2, c2, se1, se2, sg, oh1, oh2, c3, om1, om2] =>
    if s1 = Char.ofNat 45 ∧ s2 = Char.ofNat 45 ∧ c1 = Char.ofNat 58 ∧
       c2 = Char.ofNat 58 ∧ c3 = Char.ofNat 58 ∧
       (sg = Char.ofNat 43 ∨ sg = Char.ofNat 45) then do
      let y ← parse4 y1 y2 y3 y4
      let mo ← parse2 mo1 mo2
      let d ← parse2 d1 d2
      let h ← parse2 h1 h2
      let mi ← parse2 mi1 mi2
      let se ← parse2 se1 se2
      let oh ← parse2 oh1 oh2
      let om ← parse2 om1 om2
      if 1 ≤ mo ∧ mo ≤ 12 ∧ 1 ≤ d ∧ d ≤ daysInMonth y mo ∧
         h ≤ 23 ∧ mi ≤ 59 ∧ se ≤ 59 ∧ oh ≤ 23 ∧ om ≤ 59 then
        let off := (if sg = Char.ofNat 43 then 1 else -1) * (oh * 3600 + om * 60)
        some (epochSeconds y mo d h mi se off)
      else none
    else none
  | _ => none

/-- `operators._wait_n_hours` with the wall clock passed explicitly:
`now >= datetime.fromisoformat(ts) + timedelta(hours=n_hours)`.
`none` models the exception raised when `ts` does not parse to a
timezone-aware datetime. -/
def _wait_n_hours (nowEpoch : Int) (logical_time_utc : String) (n_hours : Int) :
    Option Bool :=
  (parseIsoAware logical_time_utc).map
    (fun t => decide (t + n_hours * 3600 ≤ nowEpoch))

/-- The argument shape of `experimental_operators._get_env_cte`:
`Optional[Union[str, List[str]]]`. -/
inductive EnvGuidArg where
  | noneArg : EnvGuidArg
  | strArg : String → EnvGuidArg
  | listArg : List String → EnvGuidArg

/-- Python `set(l)` as deduplication.  (CPython's set iteration order is
unspecified; any order agrees with this model on the singleton lists the
theorems below use.) -/
def pySet : List String → List String
  | [] => []
  | x :: xs => if x ∈ xs then pySet xs else x :: pySet xs

/-- The VALUES-based branch of `_get_env_cte`:
`f"SELECT column1 AS env_guid FROM (VALUES {values})"` with
`values = ", ".join([f"('{e}')" for e in set(env_guid)])`. -/
def valuesCte (env_guid : List String) : String :=
  "SELECT column1 AS env_guid FROM (VALUES " ++
  joinSep ", " ((pySet env_guid).map (fun e => "(" ++ quoted e ++ ")")) ++ ")"

/-- `experimental_operators._get_env_cte`: `None` yields the
account-table CTE literal; a bare string is wrapped into a one-element
list and both list-shaped inputs go through `valuesCte`. -/
def _get_env_cte : EnvGuidArg → String
  | .noneArg =>
      "\n        SELECT DISTINCT\n            env_guid\n        FROM\n            lw_dw.sot.core_lacework_accounts_d\n        WHERE\n            LOWER(sfdc_customer_type) IN (" ++
      quoted "internal" ++ ", " ++ quoted "current customer" ++
      ")\n            AND account_status IN (" ++ quoted "ENABLED" ++ ", " ++
      quoted "TRIAL" ++ ")\n        "
  | .strArg s => valuesCte [s]
  | .listArg l => valuesCte l

/-- Trailing-whitespace trim (Python `str.rstrip()`), used to state the
`ColumnSpec.clause` contract. -/
def pyRstripWs (s : String) : String := ⟨rstripList isPySpace s.data⟩

/-- Executable substring test: `hasSub needle hay` decides whether
`needle` occurs contiguously inside `hay`. -/
def hasSub (needle : List Char) : List Char → Bool
  | [] => needle.isEmpty
  | c :: t => needle.isPrefixOf (c :: t) || hasSub needle t

/-- The replace-step SQL text with the delete slot absent: what the
assembler's f-string collapses to when `replace_where` is empty.  The
literal contains no DELETE text, so an invocation producing exactly this
string is pure-insert. -/
def replacePureInsertSql (full_table_name col_names fmt_select autocommit_state
    transaction_start transaction_end pre_insert post_insert : String) : String :=
  "\n            alter session set\n                TIMEZONE = " ++
  quoted "UTC" ++
  "\n                TIMESTAMP_TYPE_MAPPING = TIMESTAMP_LTZ\n                AUTOCOMMIT = " ++
  autocommit_state ++ ";\n            " ++
  transaction_start ++ "\n            " ++
  pre_insert ++ "\n            \n            INSERT INTO " ++
  full_table_name ++ " (" ++ col_names ++ ")\n            SELECT " ++
  col_names ++ "\n            FROM (" ++ fmt_select ++ ");\n            " ++
  post_insert ++ "\n            " ++
  transaction_end ++
  "\n            alter session unset TIMEZONE, TIMESTAMP_TYPE_MAPPING, AUTOCOMMIT;\n            "

/-- The identifier shape accepted by `sanitize_column_name`, stated
structurally: first character an ASCII letter or underscore, every
character a word character. -/
def ValidIdent (l : List Char) : Prop :=
  (∃ c r, l = c :: r ∧ (c.isAlpha = true ∨ c = underC)) ∧
  ∀ x ∈ l, isWordChar x = true

/-- The type shape accepted by `sanitize_column_type`'s character-class
regex, stated structurally. -/
def ValidType (l : List Char) : Prop :=
  l ≠ [] ∧ ∀ x ∈ l, isTypeChar x = true

/-- Balanced parentheses, stated as the spec phrases it: on every prefix
the running open-count (opens minus closes) is non-negative, and opens
equal closes over the whole string. -/
def BalancedParens (l : List Char) : Prop :=
  (∀ pfx, pfx <+: l → pfx.count rparC ≤ pfx.count lparC) ∧
  l.count lparC = l.count rparC


theorem replaceChar_eq_bind (c : Char) (rep : List Char) (l : List Char) :
    replaceChar c rep l = l.flatMap (fun x => if x = c then rep else [x]) := by
  induction l with
  | nil => rfl
  | cons x xs ih => simp [replaceChar, ih]

/-- C7: `sanitizeComment` always succeeds and replaces every single quote
by backslash-quote: character-wise, a quote expands to `[\, ']` and every
other character is kept; in particular the quotes of `O'Brien's` are both
escaped, and the empty string maps to itself. -/
theorem C7_sanitize_comment_escapes :
    (∀ s : String, (sanitize_comment s).data =
      s.data.flatMap (fun x => if x = sqC then [bsC, sqC] else [x])) ∧
    sanitize_comment ⟨['O', sqC, 'B', 'r', 'i', 'e', 'n', sqC, 's']⟩ =
      ⟨['O', bsC, sqC, 'B', 'r', 'i', 'e', 'n', bsC, sqC, 's']⟩ ∧
    sanitize_comment "" = "" :=
  ⟨fun s => replaceChar_eq_bind sqC [bsC, sqC] s.data, by decide, rfl⟩

/-- C8: `sanitizeComment` is not idempotent — on an input containing a
single quote, re-sanitizing the escaped output escapes the quote again. -/
theorem C8_sanitize_comment_not_idempotent :
    ∃ x : String, sanitize_comment (sanitize_comment x) ≠ sanitize_comment x :=
  ⟨⟨[sqC]⟩, by decide⟩

/-- C10: `_get_env_cte` produces the same SQL text for a bare string as
for the one-element list holding it, namely the VALUES-based CTE with the
string spliced in (once) as the single quoted row. -/
theorem C10_env_cte_str_singleton_agree :
    ∀ s : String,
      _get_env_cte (.strArg s) = _get_env_cte (.listArg [s]) ∧
      _get_env_cte (.listArg [s]) =
        "SELECT column1 AS env_guid FROM (VALUES " ++
          ("(" ++ (sqS ++ s ++ sqS) ++ ")") ++ ")" :=
  fun _ => ⟨rfl, rfl⟩

theorem head?_dropWhile_not (p : Char → Bool) (l : List Char) :
    ∀ a, (l.dropWhile p).head? = some a → p a = false := by
  induction l with
  | nil => intro a h; simp [List.dropWhile] at h
  | cons x xs ih =>
      intro a h
      cases hx : p x with
      | true => rw [List.dropWhile_cons, if_pos hx] at h; exact ih a h
      | false =>
          rw [List.dropWhile_cons, if_neg (by simp [hx])] at h
          simp at h
          rwa [← h]

/-- C2 as amended: `formatQuery` trims surrounding whitespace and then
removes the whole maximal run of trailing semicolons (not just one): the
trimmed string is the result followed by some number of semicolons, the
result never ends in a semicolon, and concretely both quoted examples
evaluate to `SELECT 1`. -/
theorem C2_format_query_strips_all_trailing_semicolons :
    (∀ s : String, ∃ k,
      (pyStrip s).data = (_format_query s).data ++ List.replicate k semiC) ∧
    (∀ s : String, (_format_query s).data.getLast? ≠ some semiC) ∧
    _format_query "  SELECT 1;  " = "SELECT 1" ∧
    _format_query "SELECT 1;;" = "SELECT 1" := by
  refine ⟨fun s => ?_, fun s => ?_, by decide, by decide⟩
  · refine ⟨((pyStrip s).data.reverse.takeWhile (fun c => c = semiC)).length, ?_⟩
    have hrep : (pyStrip s).data.reverse.takeWhile (fun c => c = semiC) =
        List.replicate
          (((pyStrip s).data.reverse.takeWhile (fun c => c = semiC)).length)
          semiC := by
      rw [List.eq_replicate_iff]
      refine ⟨rfl, fun b hb => ?_⟩
      have := List.mem_takeWhile_imp hb
      simpa using this
    have hdata : (_format_query s).data =
        ((pyStrip s).data.reverse.dropWhile (fun c => c = semiC)).reverse := rfl
    calc (pyStrip s).data
        = (pyStrip s).data.reverse.reverse := (List.reverse_reverse _).symm
      _ = ((pyStrip s).data.reverse.takeWhile (fun c => c = semiC) ++
            (pyStrip s).data.reverse.dropWhile (fun c => c = semiC)).reverse := by
            rw [List.takeWhile_append_dropWhile]
      _ = ((pyStrip s).data.reverse.dropWhile (fun c => c = semiC)).reverse ++
            ((pyStrip s).data.reverse.takeWhile (fun c => c = semiC)).reverse := by
            rw [List.reverse_append]
      _ = (_format_query s).data ++
            List.replicate
              (((pyStrip s).data.reverse.takeWhile (fun c => c = semiC)).length)
              semiC := by
            rw [← hdata]
            conv_lhs => rw [hrep]
            rw [List.reverse_replicate]
  · intro hlast
    have hhead : ((pyStrip s).data.reverse.dropWhile (fun c => c = semiC)).head? =
        some semiC := by
      have hdata : (_format_query s).data =
          ((pyStrip s).data.reverse.dropWhile (fun c => c = semiC)).reverse := rfl
      rw [hdata] at hlast
      rwa [← List.head?_reverse, List.reverse_reverse] at hlast
    have := head?_dropWhile_not (fun c => c = semiC) _ _ hhead
    simp at this

theorem reMatchClassPlus_iff (p : Char → Bool) (hp : p nlC = false) (s : String) :
    reMatchClassPlus p s = true ↔
      (s.data ≠ [] ∧ s.data.all p = true) ∨
      (∃ t, s.data = t ++ [nlC] ∧ t ≠ [] ∧ t.all p = true) := by
  unfold reMatchClassPlus
  cases hlast : s.data.getLast? with
  | none =>
      rw [List.getLast?_eq_none_iff] at hlast
      simp only [hlast]
      constructor
      · intro h; exact absurd h (by simp)
      · rintro (⟨h, _⟩ | ⟨t, ht, _⟩)
        · exact absurd rfl h
        · exact absurd ht.symm (List.append_ne_nil_of_right_ne_nil t (by simp))
  | some c =>
      obtain ⟨t, ht⟩ := List.getLast?_eq_some_iff.mp hlast
      by_cases hc : c = nlC
      · subst hc
        dsimp only
        rw [if_pos rfl, ht]
        constructor
        · intro h
          refine Or.inr ⟨t, rfl, ?_, ?_⟩
          · intro h0; subst h0; simp at h
          · have := (Bool.and_eq_true _ _).mp h
            simpa [List.dropLast_concat] using this.2
        · rintro (⟨_, hall⟩ | ⟨t', ht', hne, hall⟩)
          · exfalso
            rw [List.all_append] at hall
            simp [hp] at hall
          · have htt : t' = t := (List.append_left_inj [nlC]).mp ht'.symm
            subst htt
            simp [List.dropLast_concat, hall]
            simpa using hne
      · dsimp only
        rw [if_neg hc, ht]
        constructor
        · intro h
          exact Or.inl ⟨by simp, h⟩
        · rintro (⟨_, hall⟩ | ⟨t', ht', _, _⟩)
          · exact hall
          · exfalso
            have : c = nlC := by
              have := congrArg List.getLast? ht'
              simp at this
              exact this
            exact hc this

theorem reMatchStartsAlpha_iff (s : String) :
    reMatchStartsAlpha s = true ↔
      ∃ c r, s.data = c :: r ∧ (c.isAlpha = true ∨ c = underC) := by
  unfold reMatchStartsAlpha
  cases hd : s.data with
  | nil => simp
  | cons c r =>
      simp only []
      constructor
      · intro h
        refine ⟨c, r, rfl, ?_⟩
        rcases Bool.or_eq_true _ _ |>.mp h with h | h
        · exact Or.inl h
        · exact Or.inr (by simpa using h)
      · rintro ⟨c', r', he, hor⟩
        obtain ⟨rfl, rfl⟩ : c' = c ∧ r' = r := by
          constructor <;> (cases he; rfl)
        rcases hor with h | h
        · simp [h]
        · simp [h]

/-- C4 counterexample: `sanitize_column_name` accepts `"abc\n"` unchanged
even though the newline is outside `[A-Za-z0-9_]` (Python's `$` matches
before a final newline), contradicting the claim that every string with a
character outside that class fails. -/
theorem C4_counterexample_newline_accepted :
    sanitize_column_name "abc\n" = some "abc\n" ∧ isWordChar nlC = false := by
  decide

/-- C4 as amended: `sanitize_column_name` either returns its argument
unchanged or fails, and on all-ASCII inputs — where the model of `\w`
coincides with CPython, whose default `\w` additionally accepts
non-ASCII Unicode word characters such as accented letters — it
succeeds exactly on strings matching `^[A-Za-z_]\w*$` (first character
an ASCII letter or underscore, all characters word characters),
possibly followed by one trailing newline (accepted because Python's
`$` matches just before a final newline). -/
theorem C4_sanitize_column_name_spec :
    ∀ s : String,
      (sanitize_column_name s = some s ∨ sanitize_column_name s = none) ∧
      ((∀ c ∈ s.data, c.toNat < 128) →
        (sanitize_column_name s = some s ↔
          ValidIdent s.data ∨ ∃ t, s.data = t ++ [nlC] ∧ ValidIdent t)) := by
  intro s
  constructor
  · by_cases h : (reMatchClassPlus isWordChar s && reMatchStartsAlpha s) = true
    · exact Or.inl (by simp [sanitize_column_name, h])
    · exact Or.inr (by simp [sanitize_column_name, h])
  · intro _ascii
    have hval : sanitize_column_name s = some s ↔
        (reMatchClassPlus isWordChar s && reMatchStartsAlpha s) = true := by
      constructor
      · intro h
        by_contra hb
        simp [sanitize_column_name, hb] at h
      · intro h; simp [sanitize_column_name, h]
    rw [hval, Bool.and_eq_true,
        reMatchClassPlus_iff isWordChar (by decide) s, reMatchStartsAlpha_iff s]
    constructor
    · rintro ⟨hm | ⟨t, ht, htne, hall⟩, c, r, hd, hc⟩
      · refine Or.inl ⟨⟨c, r, hd, hc⟩, ?_⟩
        intro x hx
        exact List.all_eq_true.mp hm.2 x hx
      · refine Or.inr ⟨t, ht, ⟨?_, ?_⟩⟩
        · cases t with
          | nil => exact absurd rfl htne
          | cons c' r' =>
              refine ⟨c', r', rfl, ?_⟩
              rw [ht] at hd
              cases hd
              exact hc
        · intro x hx
          exact List.all_eq_true.mp hall x hx
    · rintro (⟨⟨c, r, hd, hc⟩, hall⟩ | ⟨t, ht, ⟨c, r, hd, hc⟩, hall⟩)
      · refine ⟨Or.inl ⟨by simp [hd], ?_⟩, c, r, hd, hc⟩
        exact List.all_eq_true.mpr hall
      · refine ⟨Or.inr ⟨t, ht, by simp [hd], List.all_eq_true.mpr hall⟩,
          c, r ++ [nlC], ?_, hc⟩
        rw [ht, hd]
        rfl

theorem prefix_cons_iff' (pfx : List Char) (c : Char) (rest : List Char) :
    pfx <+: c :: rest ↔ pfx = [] ∨ ∃ q, pfx = c :: q ∧ q <+: rest := by
  cases pfx with
  | nil => simp
  | cons x xs =>
      rw [List.cons_prefix_cons]
      constructor
      · rintro ⟨rfl, h⟩; exact Or.inr ⟨xs, rfl, h⟩
      · rintro (h | ⟨q, hq, h⟩)
        · exact absurd h (by simp)
        · cases hq; exact ⟨rfl, h⟩

theorem count_cons_eq (a : Char) (q : List Char) :
    (a :: q).count a = q.count a + 1 := by
  simp [List.count_cons]

theorem count_cons_ne (a c : Char) (q : List Char) (h : a ≠ c) :
    (c :: q).count a = q.count a := by
  simp [List.count_cons, h]

theorem parenScan_iff (l : List Char) : ∀ n : Nat,
    parenScan l n = true ↔
      (∀ pfx, pfx <+: l → pfx.count rparC ≤ n + pfx.count lparC) ∧
      n + l.count lparC = l.count rparC := by
  induction l with
  | nil =>
      intro n
      simp only [parenScan, List.prefix_nil, beq_iff_eq, List.count_nil]
      constructor
      · rintro rfl; exact ⟨by rintro pfx rfl; simp, by simp⟩
      · rintro ⟨_, h⟩; omega
  | cons c rest ih =>
      intro n
      have hstep : ∀ m : Nat,
          (∀ pfx, pfx <+: c :: rest → pfx.count rparC ≤ m + pfx.count lparC) ↔
          (∀ q, q <+: rest →
              (c :: q).count rparC ≤ m + (c :: q).count lparC) := by
        intro m
        constructor
        · intro h q hq
          exact h (c :: q) ((prefix_cons_iff' _ c rest).mpr (Or.inr ⟨q, rfl, hq⟩))
        · intro h pfx hp
          rcases (prefix_cons_iff' pfx c rest).mp hp with rfl | ⟨q, rfl, hq⟩
          · simp
          · exact h q hq
      by_cases hl : c = lparC
      · subst hl
        have hred : parenScan (lparC :: rest) n = parenScan rest (n + 1) := by
          simp [parenScan]
        rw [hred, ih (n + 1), hstep n]
        have e1 : ∀ q : List Char, (lparC :: q).count lparC = q.count lparC + 1 :=
          fun q => count_cons_eq lparC q
        have e2 : ∀ q : List Char, (lparC :: q).count rparC = q.count rparC :=
          fun q => count_cons_ne rparC lparC q (by decide)
        simp only [e1, e2]
        constructor
        · rintro ⟨h1, h2⟩
          exact ⟨fun q hq => by have := h1 q hq; omega, by omega⟩
        · rintro ⟨h1, h2⟩
          exact ⟨fun q hq => by have := h1 q hq; omega, by omega⟩
      · by_cases hr : c = rparC
        · subst hr
          have e1 : ∀ q : List Char, (rparC :: q).count rparC = q.count rparC + 1 :=
            fun q => count_cons_eq rparC q
          have e2 : ∀ q : List Char, (rparC :: q).count lparC = q.count lparC :=
            fun q => count_cons_ne lparC rparC q (by decide)
          cases n with
          | zero =>
              have hred : parenScan (rparC :: rest) 0 = false := by
                simp [parenScan]
                intro h
                exact absurd h (by decide)
              rw [hred, hstep 0]
              simp only [e1, e2]
              constructor
              · intro h; exact absurd h (by simp)
              · rintro ⟨h1, _⟩
                exfalso
                have := h1 [] (by simp)
                simp at this
          | succ m =>
              have hred : parenScan (rparC :: rest) (m + 1) = parenScan rest m := by
                simp [parenScan]
                intro h
                exact absurd h hl
              rw [hred, ih m, hstep (m + 1)]
              simp only [e1, e2]
              constructor
              · rintro ⟨h1, h2⟩
                exact ⟨fun q hq => by have := h1 q hq; omega, by omega⟩
              · rintro ⟨h1, h2⟩
                exact ⟨fun q hq => by have := h1 q hq; omega, by omega⟩
        · have e1 : ∀ q : List Char, (c :: q).count lparC = q.count lparC :=
            fun q => count_cons_ne lparC c q (fun h => hl h.symm)
          have e2 : ∀ q : List Char, (c :: q).count rparC = q.count rparC :=
            fun q => count_cons_ne rparC c q (fun h => hr h.symm)
          have hred : parenScan (c :: rest) n = parenScan rest n := by
            simp [parenScan, hl, hr]
          rw [hred, ih n, hstep n]
          simp only [e1, e2]

/-- C5 counterexample: `sanitize_column_type` accepts `"INT\n"` unchanged
even though the newline is outside `[A-Za-z0-9_(), ]` (Python's `$`
matches before a final newline), contradicting the claim that every
string with a character outside that class fails. -/
theorem C5_counterexample_newline_accepted :
    sanitize_column_type "INT\n" = some "INT\n" ∧ isTypeChar nlC = false := by
  decide

theorem parenScan_zero_iff_balanced (l : List Char) :
    parenScan l 0 = true ↔ BalancedParens l := by
  rw [parenScan_iff l 0]
  unfold BalancedParens
  simp

/-- C5 as amended: `sanitize_column_type` either returns its argument
unchanged or fails; on all-ASCII inputs — where the model of `\w`
coincides with CPython, whose default `\w` additionally accepts
non-ASCII Unicode word characters — it succeeds exactly when the string
is empty, or when its characters all lie in `[A-Za-z0-9_(), ]` (allowing
one extra trailing newline, which Python's `$` accepts) and its
parentheses are balanced (running open-count never negative and zero at
the end).  The claim's unbalanced examples `VARCHAR(` and `VARCHAR))`
fail. -/
theorem C5_sanitize_column_type_spec :
    (∀ s : String,
      (sanitize_column_type s = some s ∨ sanitize_column_type s = none) ∧
      ((∀ c ∈ s.data, c.toNat < 128) →
        (sanitize_column_type s = some s ↔
          s = "" ∨
          ((ValidType s.data ∨ ∃ t, s.data = t ++ [nlC] ∧ ValidType t) ∧
            BalancedParens s.data)))) ∧
    sanitize_column_type "VARCHAR(" = none ∧
    sanitize_column_type "VARCHAR))" = none := by
  refine ⟨fun s => ?_, by decide, by decide⟩
  constructor
  · by_cases h0 : s = ""
    · subst h0; exact Or.inl (by simp [sanitize_column_type])
    · by_cases hb : (reMatchClassPlus isTypeChar s && parenScan s.data 0) = true
      · exact Or.inl (by simp [sanitize_column_type, h0, hb])
      · exact Or.inr (by simp [sanitize_column_type, h0, hb])
  · intro _ascii
    by_cases h0 : s = ""
    · subst h0; simp [sanitize_column_type]
    · have hval : sanitize_column_type s = some s ↔
          (reMatchClassPlus isTypeChar s && parenScan s.data 0) = true := by
        constructor
        · intro h
          by_contra hb
          simp [sanitize_column_type, h0, hb] at h
        · intro h; simp [sanitize_column_type, h0, h]
      rw [hval, Bool.and_eq_true, reMatchClassPlus_iff isTypeChar (by decide) s]
      rw [parenScan_zero_iff_balanced s.data]
      unfold ValidType
      constructor
      · rintro ⟨hm | ⟨t, ht, htne, hall⟩, hbal'⟩
        · exact Or.inr ⟨Or.inl ⟨hm.1, List.all_eq_true.mp hm.2⟩, hbal'⟩
        · exact Or.inr ⟨Or.inr ⟨t, ht, htne, List.all_eq_true.mp hall⟩, hbal'⟩
      · rintro (h0' | ⟨hv | ⟨t, ht, htne, hall⟩, hbal'⟩)
        · exact absurd h0' h0
        · exact ⟨Or.inl ⟨hv.1, List.all_eq_true.mpr hv.2⟩, hbal'⟩
        · exact ⟨Or.inr ⟨t, ht, htne, List.all_eq_true.mpr hall⟩, hbal'⟩

theorem dropWhile_eq_self_of_head (p : Char → Bool) (l : List Char)
    (h : ∀ a, l.head? = some a → p a = false) : l.dropWhile p = l := by
  cases l with
  | nil => rfl
  | cons x xs =>
      have hx : p x = false := h x rfl
      rw [List.dropWhile_cons, if_neg (by simp [hx])]

theorem rstrip_concat_of_neg (p : Char → Bool) (l : List Char) (c : Char)
    (h : p c = false) : rstripList p (l ++ [c]) = l ++ [c] := by
  unfold rstripList
  rw [List.reverse_append]
  simp only [List.reverse_cons, List.reverse_nil, List.nil_append,
    List.singleton_append]
  rw [List.dropWhile_cons, if_neg (by simp [h]), List.reverse_cons,
    List.reverse_reverse]

theorem rstrip_concat_of_pos (p : Char → Bool) (l : List Char) (c : Char)
    (h : p c = true) : rstripList p (l ++ [c]) = rstripList p l := by
  unfold rstripList
  rw [List.reverse_append]
  simp only [List.reverse_cons, List.reverse_nil, List.nil_append,
    List.singleton_append]
  rw [List.dropWhile_cons, if_pos (by simp [h])]

theorem ident_head_not_space (c : Char) (h : c.isAlpha = true ∨ c = underC) :
    isPySpace c = false := by
  cases hsp : isPySpace c with
  | false => rfl
  | true =>
      exfalso
      have hmem : ((((c = spC ∨ c = Char.ofNat 9) ∨ c = nlC) ∨ c = Char.ofNat 13) ∨
          c = Char.ofNat 11) ∨ c = Char.ofNat 12 := by
        simpa [isPySpace] using hsp
      rcases hmem with ((((rfl | rfl) | rfl) | rfl) | rfl) | rfl <;>
        rcases h with h | h <;> revert h <;> decide

theorem sanitize_column_name_some (n m : String)
    (h : sanitize_column_name n = some m) :
    m = n ∧ reMatchStartsAlpha n = true := by
  by_cases hb : (reMatchClassPlus isWordChar n && reMatchStartsAlpha n) = true
  · refine ⟨?_, (Bool.and_eq_true _ _ |>.mp hb).2⟩
    simp [sanitize_column_name, hb] at h
    exact h.symm
  · simp [sanitize_column_name, hb] at h

/-- C6: for every successfully constructed `ColumnSpec`, the clause
accessor fails while the stored type is empty; with a non-empty type and
empty comment it yields `"{name} {type}"` with trailing whitespace
trimmed, and with a non-empty comment it yields exactly
`"{name} {type} COMMENT '{comment}'"` joined by single spaces. -/
theorem C6_clause_contract :
    ∀ (n t cm : String) (cs : ColumnSpec), mkColumnSpec n t cm = some cs →
      (cs.col_type = "" → cs.clause = none) ∧
      (cs.col_type ≠ "" → cs.comment = "" →
        cs.clause = some (pyRstripWs (cs.name ++ " " ++ cs.col_type))) ∧
      (cs.col_type ≠ "" → cs.comment ≠ "" →
        cs.clause = some (cs.name ++ " " ++ cs.col_type ++ " " ++
          ("COMMENT " ++ quoted cs.comment))) := by
  intro n t cm cs h
  cases hn : sanitize_column_name n with
  | none => rw [mkColumnSpec, hn] at h; simp at h
  | some nm =>
    cases ht : sanitize_column_type t with
    | none => rw [mkColumnSpec, hn, ht] at h; simp at h
    | some tt =>
      have hcs : cs = ⟨nm, tt, sanitize_comment cm⟩ := by
        rw [mkColumnSpec, hn, ht] at h
        simpa using h.symm
      obtain ⟨hmn, hstart⟩ := sanitize_column_name_some n nm hn
      rw [hmn] at hcs
      subst hcs
      obtain ⟨c, r, hd, hc⟩ := (reMatchStartsAlpha_iff n).mp hstart
      have hcns : isPySpace c = false := ident_head_not_space c hc
      refine ⟨fun htt => ?_, fun htt hcm => ?_, fun htt hcm => ?_⟩
      · have htt' : tt = "" := htt
        simp [ColumnSpec.clause, htt']
      · have htt' : tt ≠ "" := htt
        have hcm' : sanitize_comment cm = "" := hcm
        have hcl : ColumnSpec.clause ⟨n, tt, sanitize_comment cm⟩ =
            some (pyStrip (n ++ " " ++ tt ++ " " ++ "")) := by
          show (if tt = "" then none else
            some (pyStrip (n ++ " " ++ tt ++ " " ++
              (if sanitize_comment cm ≠ "" then
                "COMMENT " ++ quoted (sanitize_comment cm) else "")))) =
            some (pyStrip (n ++ " " ++ tt ++ " " ++ ""))
          rw [if_neg htt', if_neg (by simp [hcm'])]
        show ColumnSpec.clause ⟨n, tt, sanitize_comment cm⟩ =
          some (pyRstripWs (n ++ " " ++ tt))
        rw [hcl]
        have hsp : (" " : String).data = [spC] := rfl
        have hem : ("" : String).data = ([] : List Char) := rfl
        have hXdata : (n ++ " " ++ tt ++ " " ++ "").data =
            (n ++ " " ++ tt).data ++ [spC] := by
          simp [String.data_append, hsp, hem]
          decide
        have hh : (n ++ " " ++ tt ++ " " ++ "").data.head? = some c := by
          rw [hXdata]
          have hns : (n ++ " " ++ tt).data = c :: (r ++ ([spC] ++ tt.data)) := by
            simp [String.data_append, hd, hsp]
            decide
          rw [hns]
          rfl
        have hdw : (n ++ " " ++ tt ++ " " ++ "").data.dropWhile isPySpace =
            (n ++ " " ++ tt ++ " " ++ "").data :=
          dropWhile_eq_self_of_head _ _ (fun a ha => by
            rw [hh] at ha
            cases ha
            exact hcns)
        have hfin : pyStrip (n ++ " " ++ tt ++ " " ++ "") =
            pyRstripWs (n ++ " " ++ tt) := by
          unfold pyStrip pyRstripWs
          rw [hdw, hXdata, rstrip_concat_of_pos isPySpace _ spC (by decide)]
        rw [hfin]
      · have htt' : tt ≠ "" := htt
        have hcm' : sanitize_comment cm ≠ "" := hcm
        have hcl : ColumnSpec.clause ⟨n, tt, sanitize_comment cm⟩ =
            some (pyStrip (n ++ " " ++ tt ++ " " ++
              ("COMMENT " ++ quoted (sanitize_comment cm)))) := by
          show (if tt = "" then none else
            some (pyStrip (n ++ " " ++ tt ++ " " ++
              (if sanitize_comment cm ≠ "" then
                "COMMENT " ++ quoted (sanitize_comment cm) else "")))) =
            some (pyStrip (n ++ " " ++ tt ++ " " ++
              ("COMMENT " ++ quoted (sanitize_comment cm))))
          rw [if_neg htt', if_pos hcm']
        show ColumnSpec.clause ⟨n, tt, sanitize_comment cm⟩ =
          some (n ++ " " ++ tt ++ " " ++
            ("COMMENT " ++ quoted (sanitize_comment cm)))
        rw [hcl]
        have hsq : sqS.data = [sqC] := rfl
        have hsp : (" " : String).data = [spC] := rfl
        have hYdata : (n ++ " " ++ tt ++ " " ++
              ("COMMENT " ++ quoted (sanitize_comment cm))).data =
            (n ++ " " ++ tt ++ " " ++
              ("COMMENT " ++ sqS ++ sanitize_comment cm)).data ++ [sqC] := by
          simp [String.data_append, quoted, hsq, List.append_assoc]
        have hh : (n ++ " " ++ tt ++ " " ++
            ("COMMENT " ++ quoted (sanitize_comment cm))).data.head? = some c := by
          have hns : (n ++ " " ++ tt ++ " " ++
              ("COMMENT " ++ quoted (sanitize_comment cm))).data =
              c :: (r ++ ([spC] ++ (tt.data ++ ([spC] ++
                ("COMMENT " ++ quoted (sanitize_comment cm)).data)))) := by
            simp [String.data_append, hd, hsp]
            decide
          rw [hns]
          rfl
        have hdw : (n ++ " " ++ tt ++ " " ++
              ("COMMENT " ++ quoted (sanitize_comment cm))).data.dropWhile
                isPySpace =
            (n ++ " " ++ tt ++ " " ++
              ("COMMENT " ++ quoted (sanitize_comment cm))).data :=
          dropWhile_eq_self_of_head _ _ (fun a ha => by
            rw [hh] at ha
            cases ha
            exact hcns)
        have hfin : pyStrip (n ++ " " ++ tt ++ " " ++
              ("COMMENT " ++ quoted (sanitize_comment cm))) =
            n ++ " " ++ tt ++ " " ++
              ("COMMENT " ++ quoted (sanitize_comment cm)) := by
          unfold pyStrip
          rw [hdw, hYdata, rstrip_concat_of_neg isPySpace _ sqC (by decide),
            ← hYdata]
        rw [hfin]

/-- Witness for C6 at a concrete constructed column. -/
theorem C6_clause_contract_witness :
    (ColumnSpec.mk "id" "INT" "note").clause =
      some ("id" ++ " " ++ "INT" ++ " " ++ ("COMMENT " ++ quoted "note")) :=
  ((C6_clause_contract "id" "INT" "note" ⟨"id", "INT", "note"⟩
      (by decide)).2.2) (by decide) (by decide)

theorem mapM_clause_isSome (cols : List ColumnSpec)
    (h : ∀ x ∈ cols, x.col_type ≠ "") :
    ∃ cl, cols.mapM ColumnSpec.clause = some cl := by
  induction cols with
  | nil => exact ⟨[], rfl⟩
  | cons x xs ih =>
      obtain ⟨cl, hcl⟩ := ih (fun y hy => h y (List.mem_cons_of_mem x hy))
      have hx : x.clause = some (pyStrip (x.name ++ " " ++ x.col_type ++ " " ++
          (if x.comment ≠ "" then "COMMENT " ++ quoted x.comment else ""))) := by
        unfold ColumnSpec.clause
        rw [if_neg (h x (List.mem_cons_self x xs))]
      refine ⟨pyStrip (x.name ++ " " ++ x.col_type ++ " " ++
        (if x.comment ≠ "" then "COMMENT " ++ quoted x.comment else "")) ::
        cl, ?_⟩
      rw [List.mapM_cons, hx, hcl]
      rfl

/-- C3 counterexample: with an empty `output_columns` list the assembler
still succeeds and produces SQL — no `PreconditionError` is raised —
contradicting the claim that assembly fails for empty column lists. -/
theorem C3_counterexample_empty_columns_accepted :
    (managed_snowflake_task_group "D" "S" "T" [] "q" "" "" "" "" true
      []).isSome = true := by
  decide

/-- C3 as amended: the assembler performs no emptiness or duplicate-name
validation on `output_columns`; whenever every column's stored type is
non-empty (so each clause accessor succeeds), assembly succeeds —
including for the empty list and for lists with duplicate names. -/
theorem C3_no_column_list_validation :
    ∀ (db sc tbl : String) (cols : List ColumnSpec)
      (sel rw pre post tt : String) (ct : Bool) (cb : List String),
      (∀ x ∈ cols, x.col_type ≠ "") →
      (managed_snowflake_task_group db sc tbl cols sel rw pre post tt ct
        cb).isSome = true := by
  intro db sc tbl cols sel rw pre post tt ct cb h
  obtain ⟨cl, hcl⟩ := mapM_clause_isSome cols h
  simp only [List.mapM] at hcl
  simp [managed_snowflake_task_group, hcl]

/-- Witness for C3 at a concrete duplicate-name column list. -/
theorem C3_no_column_list_validation_witness :
    (managed_snowflake_task_group "D" "S" "T"
      [⟨"a", "INT", ""⟩, ⟨"a", "INT", ""⟩] "q" "" "" "" "" true
      []).isSome = true :=
  C3_no_column_list_validation "D" "S" "T"
    [⟨"a", "INT", ""⟩, ⟨"a", "INT", ""⟩] "q" "" "" "" "" true [] (by decide)

/-- C9: with the wall clock passed explicitly, `_wait_n_hours` returns
`True` exactly when the current UTC time is at or after the parsed
logical time plus `n_hours` hours (so a threshold already in the past
succeeds on the first evaluation). -/
theorem C9_wait_n_hours_threshold :
    ∀ (now : Int) (ts : String) (n t : Int),
      parseIsoAware ts = some t →
      (_wait_n_hours now ts n = some true ↔ t + n * 3600 ≤ now) := by
  intro now ts n t h
  simp [_wait_n_hours, h]

/-- Witness for C9 at the moment the threshold is reached. -/
theorem C9_wait_n_hours_threshold_witness :
    _wait_n_hours 1682942400 "2023-05-01T12:00:00+00:00" 0 = some true :=
  (C9_wait_n_hours_threshold 1682942400 "2023-05-01T12:00:00+00:00" 0
    1682942400 (by decide)).mpr (by decide)

theorem hasSub_iff (needle hay : List Char) :
    hasSub needle hay = true ↔ needle <:+: hay := by
  induction hay with
  | nil =>
      rw [hasSub]
      constructor
      · intro h
        have : needle = [] := by simpa [List.isEmpty_iff] using h
        subst this
        exact List.infix_refl []
      · intro h
        have : needle = [] := List.eq_nil_of_infix_nil h
        subst this
        rfl
  | cons c t ih =>
      rw [hasSub, Bool.or_eq_true, List.isPrefixOf_iff_prefix, ih,
        List.infix_cons_iff]

theorem replaceSql_empty_delete (ft cn fs au ts te pre post : String) :
    replaceSql ft cn fs au ts te pre post "" =
      replacePureInsertSql ft cn fs au ts te pre post := by
  apply String.ext
  have hem : ("" : String).data = ([] : List Char) := rfl
  have hm : ∀ B : List Char,
      ("\n            " : String).data ++
        (("\n            INSERT INTO " : String).data ++ B) =
      ("\n            \n            INSERT INTO " : String).data ++ B := by
    intro B
    rw [← List.append_assoc]
    have hlit : ("\n            " : String).data ++
        ("\n            INSERT INTO " : String).data =
        ("\n            \n            INSERT INTO " : String).data := by decide
    rw [hlit]
  simp [replaceSql, replacePureInsertSql, String.data_append, hem,
    List.append_assoc, hm]

/-- C1 counterexample: invoking the assembler with the non-empty
predicate `" x = 1"` produces a replace SQL that does not contain
`DELETE FROM D.S.T WHERE  x = 1` (the raw predicate verbatim), because
the assembler interpolates `formatQuery(replaceWhere)`, which trims the
leading space. -/
theorem C1_counterexample_raw_predicate_not_verbatim :
    (managed_snowflake_task_group "D" "S" "T" [⟨"a", "INT", ""⟩] "SELECT 1"
      " x = 1" "" "" "" true []).isSome = true ∧
    hasSub (("DELETE FROM D.S.T WHERE " ++ " x = 1").data)
      (((managed_snowflake_task_group "D" "S" "T" [⟨"a", "INT", ""⟩] "SELECT 1"
        " x = 1" "" "" "" true []).getD ("", "")).2.data) = false := by
  decide

theorem managed_eq_some (db sc tbl : String) (cols : List ColumnSpec)
    (sel rw pre post tt : String) (ct : Bool) (cb : List String)
    (cl : List String)
    (hcl : cols.mapM ColumnSpec.clause = some cl) :
    managed_snowflake_task_group db sc tbl cols sel rw pre post tt ct cb =
      some (createSql tt (db ++ "." ++ sc ++ "." ++ tbl) (joinSep ", " cl)
          (if cb = [] then "" else "CLUSTER BY (" ++ joinSep ", " cb ++ ")"),
        replaceSql (db ++ "." ++ sc ++ "." ++ tbl)
          (joinSep ", " (cols.map ColumnSpec.name)) (_format_query sel)
          (_transaction_settings ct).2.2 (_transaction_settings ct).1
          (_transaction_settings ct).2.1
          (if pre = "" then pre else _format_query pre ++ ";")
          (if post = "" then post else _format_query post ++ ";")
          (deleteComponent (db ++ "." ++ sc ++ "." ++ tbl) rw)) := by
  simp only [managed_snowflake_task_group]
  rw [hcl]
  rfl

/-- C1 as amended: whenever assembly succeeds, an empty `replaceWhere`
yields the pure-insert replace SQL (the delete slot contributes nothing
and the emitted text contains no DELETE statement), while a non-empty
`replaceWhere` yields a replace SQL containing
`DELETE FROM {db}.{schema}.{table} WHERE {formatQuery(replaceWhere)};`
with the `INSERT INTO` statement strictly after it. -/
theorem C1_delete_placement :
    ∀ (db sc tbl : String) (cols : List ColumnSpec)
      (sel rw pre post tt : String) (ct : Bool) (cb : List String)
      (c r : String),
      managed_snowflake_task_group db sc tbl cols sel rw pre post tt ct cb =
        some (c, r) →
      (rw = "" →
        r = replacePureInsertSql (db ++ "." ++ sc ++ "." ++ tbl)
          (joinSep ", " (cols.map ColumnSpec.name)) (_format_query sel)
          (_transaction_settings ct).2.2 (_transaction_settings ct).1
          (_transaction_settings ct).2.1
          (if pre = "" then pre else _format_query pre ++ ";")
          (if post = "" then post else _format_query post ++ ";")) ∧
      (rw ≠ "" →
        ∃ p q, r.data = p ++
          ("DELETE FROM " ++ (db ++ "." ++ sc ++ "." ++ tbl) ++ " WHERE " ++
            _format_query rw ++ ";").data ++ q ∧
          ("\n            INSERT INTO " ++
            (db ++ "." ++ sc ++ "." ++ tbl)).data <+: q) := by
  intro db sc tbl cols sel rw pre post tt ct cb c r h
  cases hcl : cols.mapM ColumnSpec.clause with
  | none =>
      simp only [managed_snowflake_task_group] at h
      have hcl2 : cols.mapM ColumnSpec.clause = none := hcl
      rw [hcl2] at h
      exact Option.noConfusion (h : (none : Option (String × String)) = some (c, r))
  | some cl =>
      have hcl2 : cols.mapM ColumnSpec.clause = some cl := hcl
      rw [managed_eq_some db sc tbl cols sel rw pre post tt ct cb cl hcl2] at h
      simp only [Option.some.injEq, Prod.mk.injEq] at h
      obtain ⟨hc, hr⟩ := h
      constructor
      · intro hrw
        subst hrw
        rw [← hr]
        have hdel : deleteComponent (db ++ "." ++ sc ++ "." ++ tbl) "" = "" :=
          rfl
        rw [hdel]
        exact replaceSql_empty_delete _ _ _ _ _ _ _ _
      · intro hrw
        have hdel : deleteComponent (db ++ "." ++ sc ++ "." ++ tbl) rw =
            "DELETE FROM " ++ (db ++ "." ++ sc ++ "." ++ tbl) ++ " WHERE " ++
              _format_query rw ++ ";" := by
          unfold deleteComponent
          rw [if_neg hrw]
        refine ⟨("\n            alter session set\n                TIMEZONE = " ++
            quoted "UTC" ++
            "\n                TIMESTAMP_TYPE_MAPPING = TIMESTAMP_LTZ\n                AUTOCOMMIT = " ++
            (_transaction_settings ct).2.2 ++ ";\n            " ++
            (_transaction_settings ct).1 ++ "\n            " ++
            (if pre = "" then pre else _format_query pre ++ ";") ++
            "\n            ").data,
          ("\n            INSERT INTO " ++ (db ++ "." ++ sc ++ "." ++ tbl) ++
            " (" ++ joinSep ", " (cols.map ColumnSpec.name) ++
            ")\n            SELECT " ++ joinSep ", " (cols.map ColumnSpec.name) ++
            "\n            FROM (" ++ _format_query sel ++ ");\n            " ++
            (if post = "" then post else _format_query post ++ ";") ++
            "\n            " ++ (_transaction_settings ct).2.1 ++
            "\n            alter session unset TIMEZONE, TIMESTAMP_TYPE_MAPPING, AUTOCOMMIT;\n            ").data,
          ?_, ?_⟩
        · rw [← hr, hdel]
          simp [replaceSql, String.data_append, List.append_assoc]
        · refine ⟨(" (" ++ joinSep ", " (cols.map ColumnSpec.name) ++
            ")\n            SELECT " ++ joinSep ", " (cols.map ColumnSpec.name) ++
            "\n            FROM (" ++ _format_query sel ++ ");\n            " ++
            (if post = "" then post else _format_query post ++ ";") ++
            "\n            " ++ (_transaction_settings ct).2.1 ++
            "\n            alter session unset TIMEZONE, TIMESTAMP_TYPE_MAPPING, AUTOCOMMIT;\n            ").data, ?_⟩
          simp [String.data_append, List.append_assoc]

/-- Witness for C1 at a concrete invocation with an empty predicate: the
replace SQL equals the pure-insert assembly. -/
theorem C1_delete_placement_witness :
    ((managed_snowflake_task_group "D" "S" "T" [⟨"a", "INT", ""⟩] "SELECT 1"
        "" "" "" "" true []).getD ("", "")).2 =
      replacePureInsertSql ("D" ++ "." ++ "S" ++ "." ++ "T")
        (joinSep ", " (([⟨"a", "INT", ""⟩] : List ColumnSpec).map
          ColumnSpec.name))
        (_format_query "SELECT 1")
        (_transaction_settings true).2.2 (_transaction_settings true).1
        (_transaction_settings true).2.1
        (if ("" : String) = "" then "" else _format_query "" ++ ";")
        (if ("" : String) = "" then "" else _format_query "" ++ ";") :=
  (C1_delete_placement "D" "S" "T" [⟨"a", "INT", ""⟩] "SELECT 1" "" "" "" ""
    true []
    ((managed_snowflake_task_group "D" "S" "T" [⟨"a", "INT", ""⟩] "SELECT 1"
      "" "" "" "" true []).getD ("", "")).1
    ((managed_snowflake_task_group "D" "S" "T" [⟨"a", "INT", ""⟩] "SELECT 1"
      "" "" "" "" true []).getD ("", "")).2
    (by decide)).1 rfl

/-- C2 counterexample: `formatQuery("SELECT 1;;")` evaluates to
`SELECT 1`, not `SELECT 1;` — `rstrip(";")` removes the whole trailing
run of semicolons, not just one. -/
theorem C2_counterexample_double_semicolon :
    _format_query "SELECT 1;;" = "SELECT 1" ∧
    _format_query "SELECT 1;;" ≠ "SELECT 1;" := by
  decide

/-- Witness for C4 at a concrete all-ASCII identifier. -/
theorem C4_sanitize_column_name_spec_witness :
    sanitize_column_name "abc" = some "abc" :=
  ((C4_sanitize_column_name_spec "abc").2 (by decide)).mpr
    (Or.inl ⟨⟨'a', ['b', 'c'], rfl, Or.inl (by decide)⟩, by decide⟩)

/-- Witness for C5 at a concrete all-ASCII balanced type string. -/
theorem C5_sanitize_column_type_spec_witness :
    sanitize_column_type "VARCHAR(50)" = some "VARCHAR(50)" :=
  ((C5_sanitize_column_type_spec.1 "VARCHAR(50)").2 (by decide)).mpr
    (Or.inr ⟨Or.inl ⟨by decide, by decide⟩,
      (parenScan_zero_iff_balanced ("VARCHAR(50)" : String).data).mp
        (by decide)⟩)
